import Mathlib

/-!
# Verification of the css-controls value-detection and adjustment engine

This file gives a shallow embedding, in Lean, of the pure core of the
css-controls editor extension: the line scanners (`getNumberRangesOnLine`,
the Tailwind compound-token scanner, the property/value scanner of
`findClosestPropertyValueRangeOnLine`), the nearest-candidate selectors,
and the value mutators (`runNumberAdjustment`'s Tailwind branch,
`createCyclePropertyValueCommand`'s keyword cycling, and
`runValueAdjustment`'s number-vs-keyword choice), together with theorems
checking the behavioural claims made about them.

Lines of text are modelled as `List Char`; spans are half-open `[s, e)`
index intervals; JavaScript numbers are modelled as exact rationals (at
every input appearing in the claims the IEEE-double computation performed
by the source agrees with the exact rational one at the precision at which
the result is formatted); regex scans are embedded as executable functions
that reproduce the left-to-right, greedy/backtracking, non-overlapping
semantics of the concrete patterns used by the source.
-/

namespace CssControls

/-! ## Basic character classes and list helpers -/

/-- Span `[s, e)` of zero-based character offsets within a line
(`vscode.Range` restricted to one line, keeping only the columns). -/
structure Span where
  s : Nat
  e : Nat
deriving DecidableEq

/-- JavaScript `\s` restricted to the whitespace characters that can occur
in a single line of the sources. -/
def isSpaceCh (c : Char) : Bool :=
  decide (c = ' ' ∨ c = '\t' ∨ c = '\n' ∨ c = '\r')

/-- `[a-z]`. -/
def isLowerCh (c : Char) : Bool :=
  decide (97 ≤ c.toNat ∧ c.toNat ≤ 122)

/-- `[A-Z]`. -/
def isUpperCh (c : Char) : Bool :=
  decide (65 ≤ c.toNat ∧ c.toNat ≤ 90)

/-- JavaScript `\w` (word character), used by the `\b` boundary assertion. -/
def isWordCh (c : Char) : Bool :=
  isLowerCh c || isUpperCh c || c.isDigit || decide (c = '_')

/-- `[a-z-]` under the `i` flag, i.e. letters of either case and `-`. -/
def isPropCh (c : Char) : Bool :=
  isLowerCh c || isUpperCh c || decide (c = '-')

/-- Length of the maximal run of characters satisfying `p` at the head. -/
def runLength (p : Char → Bool) : List Char → Nat
  | [] => 0
  | c :: cs => if p c then runLength p cs + 1 else 0

/-- The slice `cs[s..e)` of a character list (JS `substring`). -/
def sliceChars (cs : List Char) (s e : Nat) : List Char :=
  (cs.take e).drop s

/-- ASCII lowercase a character list (JS `toLowerCase` on the ASCII inputs
handled here). -/
def lowerChars (cs : List Char) : List Char :=
  cs.map Char.toLower

/-- JS `String.prototype.trim` (strip leading and trailing whitespace). -/
def trimChars (cs : List Char) : List Char :=
  ((cs.dropWhile isSpaceCh).reverse.dropWhile isSpaceCh).reverse

/-- First index of `pat` in `s` (JS `indexOf`), `none` when absent. -/
def firstOccurAux : Nat → List Char → List Char → Nat → Option Nat
  | 0, _, _, _ => none
  | f + 1, pat, s, i =>
    if pat.isPrefixOf s then some i
    else
      match s with
      | [] => none
      | _ :: rest => firstOccurAux f pat rest (i + 1)

/-- First index of `pat` in `s` (JS `indexOf`), `none` when it is absent. -/
def firstOccur (pat s : List Char) : Option Nat :=
  firstOccurAux (s.length + 1) pat s 0

/-- Number of positions of `s` at which `pat` occurs (used to state that a
replacement introduces exactly one `!important`). -/
def countOccur (pat s : List Char) : Nat :=
  (List.range (s.length + 1)).countP (fun i => pat.isPrefixOf (s.drop i))

/-- Replace the span `sp` of `line` with `text` (the host `replaceSpan`
primitive applied to one line). -/
def applyReplace (line : String) (sp : Span) (text : String) : String :=
  String.mk ((line.data.take sp.s) ++ text.data ++ (line.data.drop sp.e))

/-! ## The document model and language helpers (`constants.ts`) -/

/-- The slice of a `vscode.TextDocument` the core reads: a language id and
the list of line texts. -/
structure Document where
  languageId : String
  lines : List String

/-- `document.lineCount`. -/
def Document.lineCount (doc : Document) : Int :=
  doc.lines.length

/-- `document.lineAt(n).text` (only queried at valid indices by the code). -/
def Document.lineTextAt (doc : Document) (n : Nat) : List Char :=
  (doc.lines.getD n "").data

/-- `isCssLikeLanguage` from `constants.ts`. -/
def isCssLikeLanguage (languageId : String) : Bool :=
  decide (languageId = "css" ∨ languageId = "scss" ∨ languageId = "less")

/-- `isHtmlOrJsxLanguage` from `constants.ts`. -/
def isHtmlOrJsxLanguage (languageId : String) : Bool :=
  decide (languageId = "html" ∨ languageId = "javascriptreact" ∨
    languageId = "typescriptreact")

/-- `PROPERTY_VALUES` from `constants.ts`: the Enumeration Table. -/
def propertyValues : List (String × List String) :=
  [("justify-content",
    ["flex-start", "flex-end", "center", "space-between", "space-around",
     "space-evenly", "stretch"]),
   ("align-items", ["flex-start", "flex-end", "center", "baseline", "stretch"]),
   ("align-self",
    ["auto", "flex-start", "flex-end", "center", "baseline", "stretch"])]

/-- `PROPERTY_VALUES[property]` (`none` models a property that is not a key
of the record). -/
def lookupPV (property : String) : Option (List String) :=
  (propertyValues.find? (fun p => decide (p.1 = property))).map (·.2)

/-! ## The CSS number scanner (`CSS_NUMBER_REGEX`, `detection.ts`)

`CSS_NUMBER_REGEX` is `-?\d*\.?\d+(px|rem|em|vh|vw|%|ch|fr)?` with the `g`
flag.  At a given
start position the backtracking engine matches: an optional sign, then the
longest numeric body of the shape `digits` or `digits "." digits` (with at
least one digit after the dot for the dot to be consumed), then the first
unit of the alternation that literally follows. -/

/-- Length matched by `\d*\.?\d+` at the head of `cs`, `none` when the body
cannot match there. -/
def cssBodyLen (cs : List Char) : Option Nat :=
  let a := runLength Char.isDigit cs
  if a > 0 then
    match cs.drop a with
    | '.' :: rest =>
      let b := runLength Char.isDigit rest
      if b > 0 then some (a + 1 + b) else some a
    | _ => some a
  else
    match cs with
    | '.' :: rest =>
      let b := runLength Char.isDigit rest
      if b > 0 then some (1 + b) else none
    | _ => none

/-- The unit alternation `(px|rem|em|vh|vw|%|ch|fr)?`, in the source's
alternation order. -/
def cssUnitList : List (List Char) :=
  [['p', 'x'], ['r', 'e', 'm'], ['e', 'm'], ['v', 'h'], ['v', 'w'], ['%'],
   ['c', 'h'], ['f', 'r']]

/-- Length of the unit suffix consumed at the head of `cs` (0 when none of
the alternatives matches, as the group is optional). -/
def cssUnitLen (cs : List Char) : Nat :=
  match cssUnitList.find? (fun u => u.isPrefixOf cs) with
  | some u => u.length
  | none => 0

/-- Full length matched by `CSS_NUMBER_REGEX` at the head of `cs`. -/
def cssMatchLen (cs : List Char) : Option Nat :=
  match cs with
  | '-' :: rest =>
    match cssBodyLen rest with
    | some n => some (1 + n + cssUnitLen (rest.drop n))
    | none =>
      (cssBodyLen cs).map (fun n => n + cssUnitLen (cs.drop n))
  | _ => (cssBodyLen cs).map (fun n => n + cssUnitLen (cs.drop n))

/-- The global scan of `CSS_NUMBER_REGEX.exec` over a line: left-to-right,
non-overlapping, restarting after each match. -/
def scanCssAux : Nat → List Char → Nat → List Span
  | 0, _, _ => []
  | _ + 1, [], _ => []
  | f + 1, cs, i =>
    match cssMatchLen cs with
    | some n => ⟨i, i + n⟩ :: scanCssAux f (cs.drop n) (i + n)
    | none => scanCssAux f (cs.drop 1) (i + 1)

/-- All CSS-number spans on a line, in scan order. -/
def scanCss (cs : List Char) : List Span :=
  scanCssAux (cs.length + 1) cs 0

/-! ## The Tailwind compound-token scanner (`TAILWIND_NUMBER_REGEX`)

`TAILWIND_NUMBER_REGEX = /\b([a-z]+(?:-[a-z]+)*)-(\d+\.?\d*)([a-z]*)/g`.
A match is a word-boundary-anchored prefix (lowercase words joined by
hyphens, the greedy star backtracking from the longest segment list), a
hyphen, a number (`\d+\.?\d*` — note the dot is consumed even with no
digits after it), and an optional lowercase suffix. -/

/-- One regex match of the Tailwind pattern: `match.index` plus the
lengths of groups 1 (word stem), 2 (number) and 3 (suffix). -/
structure TwMatch where
  index : Nat
  stemLen : Nat
  numLen : Nat
  sufLen : Nat
deriving DecidableEq

/-- Start column of the number group of a Tailwind match
(`match.index + match[1].length + 1`). -/
def TwMatch.numberStart (m : TwMatch) : Nat :=
  m.index + m.stemLen + 1

/-- End column of the number group of a Tailwind match. -/
def TwMatch.numberEnd (m : TwMatch) : Nat :=
  m.numberStart + m.numLen

/-- End column of the whole compound token
(`match.index + match[0].length`). -/
def TwMatch.fullEnd (m : TwMatch) : Nat :=
  m.index + m.stemLen + 1 + m.numLen + m.sufLen

/-- `-(\d+\.?\d*)([a-z]*)` at the head of `cs`: the hyphen, the number and
the suffix; returns `(numLen, sufLen)`. -/
def twTryDash (cs : List Char) : Option (Nat × Nat) :=
  match cs with
  | '-' :: rest =>
    let d := runLength Char.isDigit rest
    if d > 0 then
      let numLen :=
        match rest.drop d with
        | '.' :: rest2 => d + 1 + runLength Char.isDigit rest2
        | _ => d
      some (numLen, runLength isLowerCh (rest.drop numLen))
    else none
  | _ => none

/-- Backtracking of the greedy `(?:-[a-z]+)*` star: try to extend the word
stem with one more `-word` segment first; only if every longer stem fails
to be followed by `-number`, fall back to closing the stem here. Returns
`(stemLen, numLen, sufLen)`. -/
def twExtend : Nat → List Char → Nat → Option (Nat × Nat × Nat)
  | 0, _, _ => none
  | f + 1, cs, acc =>
    let deeper : Option (Nat × Nat × Nat) :=
      match cs with
      | '-' :: rest =>
        let r := runLength isLowerCh rest
        if r > 0 then twExtend f (rest.drop r) (acc + 1 + r) else none
      | _ => none
    match deeper with
    | some res => some res
    | none => (twTryDash cs).map (fun p => (acc, p.1, p.2))

/-- Attempt the Tailwind pattern at the head of `cs` (without the `\b`
check, performed by the scanner). -/
def twMatchAt (cs : List Char) : Option (Nat × Nat × Nat) :=
  let r0 := runLength isLowerCh cs
  if r0 = 0 then none else twExtend cs.length (cs.drop r0) r0

/-- The global scan of `TAILWIND_NUMBER_REGEX.exec` over a line; `prev` is
the character before the current position, for the `\b` assertion. -/
def scanTwAux : Nat → Option Char → List Char → Nat → List TwMatch
  | 0, _, _, _ => []
  | _ + 1, _, [], _ => []
  | f + 1, prev, c :: rest, i =>
    let boundaryOk : Bool :=
      match prev with
      | none => true
      | some p => !(isWordCh p)
    match (if boundaryOk then twMatchAt (c :: rest) else none) with
    | some (p, n, s) =>
      let len := p + 1 + n + s
      ⟨i, p, n, s⟩ ::
        scanTwAux f (((c :: rest).take len).getLast?) ((c :: rest).drop len)
          (i + len)
    | none => scanTwAux f (some c) rest (i + 1)

/-- All Tailwind compound-token matches on a line, in scan order. -/
def scanTw (cs : List Char) : List TwMatch :=
  scanTwAux (cs.length + 1) none cs 0

/-! ## `getNumberRangesOnLine` and `findClosestNumberRangeOnLine`
(`detection.ts`) -/

/-- `getNumberRangesOnLine`: numeric token spans on a line, CSS numbers for
CSS-like languages, Tailwind number groups for HTML/JSX, nothing
otherwise. -/
def getNumberRangesOnLine (doc : Document) (lineNumber : Nat) : List Span :=
  let lineText := doc.lineTextAt lineNumber
  if isCssLikeLanguage doc.languageId then scanCss lineText
  else if isHtmlOrJsxLanguage doc.languageId then
    (scanTw lineText).map (fun m => ⟨m.numberStart, m.numberEnd⟩)
  else []

/-- `refCol >= range.start.character && refCol <= range.end.character`. -/
def containsRef (sp : Span) (rc : Nat) : Bool :=
  decide (sp.s ≤ rc ∧ rc ≤ sp.e)

/-- Twice the midpoint distance `Math.abs((start + end) / 2 - refCol)`,
as a natural number.  On the integer columns involved the JS double
computation is exact, so comparing doubled distances compares the source's
distances faithfully. -/
def distTwice (sp : Span) (rc : Nat) : Nat :=
  ((sp.s : Int) + sp.e - 2 * rc).natAbs

/-- The closest-by-center loop of `findClosestNumberRangeOnLine`: walk the
remaining ranges keeping the best candidate, replacing it only on a
strictly smaller distance. -/
def closestLoop (rc : Nat) : Span → Nat → List Span → Span
  | best, _, [] => best
  | best, bestDist, sp :: rest =>
    if distTwice sp rc < bestDist then closestLoop rc sp (distTwice sp rc) rest
    else closestLoop rc best bestDist rest

/-- `findClosestNumberRangeOnLine` from `detection.ts`: bounds check, scan,
prefer a range containing the reference column, otherwise the first range
of minimal midpoint distance. -/
def findClosestNumberRangeOnLine (doc : Document) (lineNumber : Int)
    (referenceColumn : Option Nat) : Option Span :=
  if lineNumber < 0 ∨ doc.lineCount ≤ lineNumber then none
  else
    match getNumberRangesOnLine doc lineNumber.toNat with
    | [] => none
    | r0 :: rest =>
      match (r0 :: rest).find?
          (fun sp => containsRef sp (referenceColumn.getD 0)) with
      | some sp => some sp
      | none =>
        some (closestLoop (referenceColumn.getD 0) r0
          (distTwice r0 (referenceColumn.getD 0)) rest)

/-! ## The specification-side selector (`selectNearest` of the spec)

Written from the spec's words, to be compared with the code: first
candidate in scan order whose span contains the reference column
(inclusive of both ends); otherwise the candidate whose span midpoint has
minimum absolute distance to the reference column, ties broken by first
occurrence; `none` on an empty candidate list. -/

/-- The midpoint distance `|(start + end) / 2 - refCol|` as an exact
rational, as the spec words it. -/
def centerDist (sp : Span) (rc : Nat) : ℚ :=
  |((sp.s : ℚ) + sp.e) / 2 - rc|

/-- First candidate of minimal midpoint distance: the first list element
whose distance is less than or equal to every element's distance. -/
def firstMin (rc : Nat) (rs : List Span) : Option Span :=
  rs.find? (fun sp => rs.all (fun t => decide (centerDist sp rc ≤ centerDist t rc)))

/-- `firstMin` restated over the doubled integer distances (an exact
rescaling of the rational midpoint distances). -/
def firstMinN (rc : Nat) (rs : List Span) : Option Span :=
  rs.find? (fun sp => rs.all (fun t => decide (distTwice sp rc ≤ distTwice t rc)))

/-- `selectNearest` as the spec states it. -/
def specNearest (rs : List Span) (rc : Nat) : Option Span :=
  match rs.find? (fun sp => containsRef sp rc) with
  | some sp => some sp
  | none => firstMin rc rs

/-! ## The property/value scanner (`findClosestPropertyValueRangeOnLine`)

The declaration pattern is `([a-z-]+)\s*:\s*([^;]+?)(?:\s*;|\s*$)` with the
`g` and `i` flags: a property name, a colon with irregular whitespace, a
lazy value run of non-semicolon characters, terminated by an optional
semicolon or end of line.  The greedy whitespace after the colon
backtracks outward, the lazy value grows inward, and the first overall
success in that order is the match. -/

/-- One raw regex match of the declaration pattern: `match.index`, the
length of group 1 (property), the offset and length of group 2 (value)
relative to `index`, and the full match length (which advances
`lastIndex`). -/
structure PvRegexMatch where
  index : Nat
  propLen : Nat
  valOff : Nat
  valLen : Nat
  matchLen : Nat
deriving DecidableEq

/-- The terminator `(?:\s*;|\s*$)` at the head of `vs`: length consumed,
`none` when neither alternative matches. -/
def pvTermLen (vs : List Char) : Option Nat :=
  let w := runLength isSpaceCh vs
  match (vs.drop w).head? with
  | some c => if c = ';' then some (w + 1) else none
  | none => some w

/-- The lazy `([^;]+?)` followed by the terminator: starting from a value
of one character, grow the value until the terminator matches.  Returns
`(valueLength, valueLength + terminatorLength)`. -/
def pvLazyAux : Nat → List Char → Nat → Option (Nat × Nat)
  | 0, _, _ => none
  | f + 1, rest, consumed =>
    match rest with
    | [] => none
    | c :: rest2 =>
      if c = ';' then none
      else
        match pvTermLen rest2 with
        | some t => some (consumed + 1, consumed + 1 + t)
        | none => pvLazyAux f rest2 (consumed + 1)

/-- Lazy value search from the head of `vs`. -/
def pvLazy (vs : List Char) : Option (Nat × Nat) :=
  pvLazyAux (vs.length + 1) vs 0

/-- Backtracking of the greedy `\s*` after the colon: try the full
whitespace run first, then shorter prefixes.  `csJ0` is the text after the
colon; returns `(w2, valueLength, lengthFromJ0)`. -/
def pvW2Search : Nat → List Char → Option (Nat × Nat × Nat)
  | 0, csJ0 => (pvLazy csJ0).map (fun p => (0, p.1, p.2))
  | w2 + 1, csJ0 =>
    match pvLazy (csJ0.drop (w2 + 1)) with
    | some (l, m) => some (w2 + 1, l, (w2 + 1) + m)
    | none => pvW2Search w2 csJ0

/-- Attempt the declaration pattern at the head of `cs` (with `index = 0`;
the scanner fills in the absolute index). -/
def pvMatchAt (cs : List Char) : Option PvRegexMatch :=
  let r := runLength isPropCh cs
  if r = 0 then none
  else
    let w1 := runLength isSpaceCh (cs.drop r)
    match (cs.drop (r + w1)).head? with
    | some ':' =>
      let j0 := r + w1 + 1
      let csJ0 := cs.drop j0
      match pvW2Search (runLength isSpaceCh csJ0) csJ0 with
      | some (w2, l, m) =>
        some ⟨0, r, j0 + w2, l, j0 + m⟩
      | none => none
    | _ => none

/-- The global scan of the declaration pattern over a line. -/
def pvScanAux : Nat → List Char → Nat → List PvRegexMatch
  | 0, _, _ => []
  | _ + 1, [], _ => []
  | f + 1, cs, i =>
    match pvMatchAt cs with
    | some m =>
      { m with index := i } ::
        pvScanAux f (cs.drop m.matchLen) (i + m.matchLen)
    | none => pvScanAux f (cs.drop 1) (i + 1)

/-- All declaration matches on a line, in scan order. -/
def pvScan (cs : List Char) : List PvRegexMatch :=
  pvScanAux (cs.length + 1) cs 0

/-- A processed entry of the `matches` array built by
`findClosestPropertyValueRangeOnLine`: property name, canonical member
value, and the recorded value span. -/
structure PvCandidate where
  property : String
  value : String
  valueStart : Nat
  valueEnd : Nat
deriving DecidableEq

/-- Case-insensitive prefix test used when matching the literal word
`important`. -/
def ciPrefix (pat s : List Char) : Bool :=
  decide (lowerChars (s.take pat.length) = lowerChars pat)

/-- The pattern `^!\s*important` (case-insensitive) at the head of `rem`:
total matched length, `none` when it does not match. -/
def importantDirectLen (rem : List Char) : Option Nat :=
  match rem with
  | c :: rest =>
    if c = '!' then
      if ciPrefix "important".data (rest.drop (runLength isSpaceCh rest)) then
        some (1 + runLength isSpaceCh rest + 9)
      else none
    else none
  | [] => none

/-- The span-end computation of the detector: starting from the end of the
matched member, inspect the following text; a whitespace or semicolon
boundary (or end of text) leaves the span at the member end, while a
directly adjacent `!important` resets the end to
`spanStart + length(matched modifier text)`. -/
def pvActualEnd (spanStart vLen : Nat) (remaining : List Char) : Nat :=
  match remaining.head? with
  | some c =>
    if isSpaceCh c || decide (c = ';') || decide (c = '!') then
      if c = '!' then
        match importantDirectLen remaining with
        | some m => spanStart + m
        | none => spanStart + vLen
      else spanStart + vLen
    else spanStart + vLen
  | none => spanStart + vLen

/-- The member loop of the detector: walk the family's members in table
order; the first member that prefixes the declaration's value (allowing a
following space or `!` marker) and is re-found in the rest of the line
yields the candidate. -/
def pvMemberLoop (cs : List Char) (m : PvRegexMatch) (property : String)
    (fullValueLower : List Char) : List String → Option PvCandidate
  | [] => none
  | v :: rest =>
    let vLower := lowerChars v.data
    if decide (fullValueLower = vLower) ||
        (vLower ++ [' ']).isPrefixOf fullValueLower ||
        (vLower ++ ['!']).isPrefixOf fullValueLower then
      let colonIndex := m.index + m.propLen
      let afterColon := cs.drop colonIndex
      match afterColon.findIdx? (fun c => decide (c = ':')) with
      | some ci =>
        let cmLen := 1 + runLength isSpaceCh (afterColon.drop (ci + 1))
        let valueStart := colonIndex + ci + cmLen
        let valueText := cs.drop valueStart
        match firstOccur vLower (lowerChars valueText) with
        | some valueIndex =>
          let spanStart := valueStart + valueIndex
          let remaining := valueText.drop (valueIndex + v.length)
          some ⟨property, v, spanStart, pvActualEnd spanStart v.length remaining⟩
        | none => pvMemberLoop cs m property fullValueLower rest
      | none => pvMemberLoop cs m property fullValueLower rest
    else pvMemberLoop cs m property fullValueLower rest

/-- Process one raw declaration match into a candidate: lowercase the
property, trim the value, look the property up in the Enumeration Table,
and run the member loop. -/
def pvProcessMatch (cs : List Char) (m : PvRegexMatch) : Option PvCandidate :=
  let property := String.mk (lowerChars (trimChars
    (sliceChars cs m.index (m.index + m.propLen))))
  let fullValue := trimChars
    (sliceChars cs (m.index + m.valOff) (m.index + m.valOff + m.valLen))
  match lookupPV property with
  | none => none
  | some validValues =>
    pvMemberLoop cs m property (lowerChars fullValue) validValues

/-- The full `matches` array of the detector, in scan order. -/
def pvCollect (cs : List Char) : List PvCandidate :=
  (pvScan cs).filterMap (pvProcessMatch cs)

/-- Twice the midpoint distance of a `PvCandidate` (exact, see
`distTwice`). -/
def pvDistTwice (m : PvCandidate) (rc : Nat) : Nat :=
  ((m.valueStart : Int) + m.valueEnd - 2 * rc).natAbs

/-- The single-pass selection loop of the detector: break on the first
candidate whose span contains the cursor; otherwise keep the first
candidate of strictly smallest midpoint distance (`bestDist` starts at
infinity, modelled by `none`). -/
def pvSelectLoop (rc : Nat) :
    List PvCandidate → Option PvCandidate → Option Nat → Option PvCandidate
  | [], best, _ => best
  | m :: rest, best, bestDist =>
    if decide (m.valueStart ≤ rc ∧ rc ≤ m.valueEnd) then some m
    else
      let d := pvDistTwice m rc
      if bestDist.all (fun b => decide (d < b)) then
        pvSelectLoop rc rest (some m) (some d)
      else pvSelectLoop rc rest best bestDist

/-- The result record of `findClosestPropertyValueRangeOnLine`
(`PropertyValueInfo`). -/
structure PvInfo where
  range : Span
  property : String
  value : String
deriving DecidableEq

/-- `findClosestPropertyValueRangeOnLine` from `detection.ts`. -/
def findClosestPropertyValueRangeOnLine (doc : Document) (lineNumber : Int)
    (referenceColumn : Option Nat) : Option PvInfo :=
  if lineNumber < 0 ∨ doc.lineCount ≤ lineNumber then none
  else if !(isCssLikeLanguage doc.languageId) then none
  else
    let cs := doc.lineTextAt lineNumber.toNat
    let rc := referenceColumn.getD 0
    match pvCollect cs with
    | [] => none
    | ms =>
      (pvSelectLoop rc ms none none).map
        (fun m => ⟨⟨m.valueStart, m.valueEnd⟩, m.property, m.value⟩)

/-! ## Number parsing and formatting (the Tailwind mutator's arithmetic)

The mutator's numbers are decimal literals adjusted by the decimal steps
0.1, 1 and 10, so they are modelled exactly as decimal fixed-point values
`num / 10 ^ exp`.  At every input appearing in the claims the IEEE-double
computation performed by the source produces the same digit string once
formatted (`toFixed(1)` or `Math.round`), so the exact model is faithful
where it is used. -/

/-- An exact decimal value `num / 10 ^ exp` (the value of a JS number in
this mutator). -/
structure Dec10 where
  num : Int
  exp : Nat
deriving DecidableEq

/-- Decimal addition by aligning exponents. -/
def Dec10.add (x y : Dec10) : Dec10 :=
  let e := max x.exp y.exp
  ⟨x.num * 10 ^ (e - x.exp) + y.num * 10 ^ (e - y.exp), e⟩

/-- Decimal subtraction by aligning exponents. -/
def Dec10.sub (x y : Dec10) : Dec10 :=
  let e := max x.exp y.exp
  ⟨x.num * 10 ^ (e - x.exp) - y.num * 10 ^ (e - y.exp), e⟩

/-- Digits to a natural number. -/
def digitsToNat (cs : List Char) : Nat :=
  cs.foldl (fun a c => a * 10 + (c.toNat - 48)) 0

/-- JS `parseFloat` on the texts reachable here: skip leading whitespace,
optional sign, integer digits, optional fraction; `none` models `NaN`
(no digits at all).  Trailing non-numeric text is ignored, as in JS. -/
def parseFloatDec (cs : List Char) : Option Dec10 :=
  let cs1 := cs.dropWhile isSpaceCh
  let neg : Bool := cs1.head? = some '-'
  let cs2 :=
    match cs1 with
    | '-' :: r => r
    | '+' :: r => r
    | _ => cs1
  let a := runLength Char.isDigit cs2
  let intPart := digitsToNat (cs2.take a)
  match cs2.drop a with
  | '.' :: r =>
    let b := runLength Char.isDigit r
    if a = 0 ∧ b = 0 then none
    else
      let mag : Int := intPart * 10 ^ b + digitsToNat (r.take b)
      some ⟨if neg then -mag else mag, b⟩
  | _ =>
    if a = 0 then none
    else some ⟨if neg then -(intPart : Int) else intPart, 0⟩

/-- JS `Math.round` (round half toward positive infinity):
`round(num / d) = fdiv (2 * num + d) (2 * d)`. -/
def roundJS (x : Dec10) : Int :=
  Int.fdiv (2 * x.num + 10 ^ x.exp) (2 * 10 ^ x.exp)

/-- `toFixed(1)` on a nonnegative magnitude `n / 10 ^ e`: round to the
nearest tenth (ties up in magnitude, as ECMA specifies) and print one
decimal digit. -/
def toFixed1Abs (n : Nat) (e : Nat) : String :=
  let d := 10 ^ e
  let m := (20 * n + d) / (2 * d)
  String.mk ((toString (m / 10)).data ++ '.' :: (toString (m % 10)).data)

/-- JS `Number.prototype.toFixed(1)` (sign handled as ECMA does, by
formatting the magnitude). -/
def toFixed1 (x : Dec10) : String :=
  if x.num < 0 then String.mk ('-' :: (toFixed1Abs x.num.natAbs x.exp).data)
  else toFixed1Abs x.num.natAbs x.exp

/-- The `replace` of the trailing `.0` applied to the `toFixed(1)`
output. -/
def stripDotZero (s : String) : String :=
  if s.data.reverse.take 2 = ['0', '.'] then
    String.mk (s.data.take (s.data.length - 2))
  else s

/-- The process-wide Adjustment Step (`currentStep`). -/
inductive StepSize where
  | tenth
  | one
  | ten
deriving DecidableEq

/-- The step magnitude: 0.1, 1 or 10. -/
def stepAmount : StepSize → Dec10
  | .tenth => ⟨1, 1⟩
  | .one => ⟨1, 0⟩
  | .ten => ⟨10, 0⟩

/-- The new-number formatting of the Tailwind mutator: one decimal digit
with a stripped trailing `.0` for the fractional step (the source tests
`stepAmount === 0.1`, which holds exactly of the `tenth` magnitude),
`Math.round` and no decimal point otherwise. -/
def formatNewNumber (step : StepSize) (isIncrement : Bool) (x : Dec10) : String :=
  let newNumber :=
    if isIncrement then x.add (stepAmount step) else x.sub (stepAmount step)
  if stepAmount step = ⟨1, 1⟩ then stripDotZero (toFixed1 newNumber)
  else toString (roundJS newNumber)

/-! ## The Tailwind numeric mutator (`runNumberAdjustment`,
`applyTailwindNumberAdjustment`) -/

/-- The re-location loop: the first Tailwind match whose number group
coincides with the target span. -/
def findEnclosingClass (ms : List TwMatch) (target : Span) : Option TwMatch :=
  ms.find? (fun m =>
    decide (m.numberStart = target.s ∧ m.numberEnd = target.e))

/-- Group 1 (word stem) of a match, read back from the line. -/
def twStemStr (cs : List Char) (m : TwMatch) : List Char :=
  sliceChars cs m.index (m.index + m.stemLen)

/-- Group 3 (suffix) of a match, read back from the line. -/
def twSufStr (cs : List Char) (m : TwMatch) : List Char :=
  sliceChars cs m.numberEnd m.fullEnd

/-- The Tailwind branch of `runNumberAdjustment`: parse the targeted
number text, compute and format the new number, re-locate the enclosing
compound token and replace it whole, falling back to replacing just the
numeric span.  `none` is the silent no-op on an unparseable number. -/
def twAdjust (cs : List Char) (target : Span) (step : StepSize)
    (isIncrement : Bool) : Option (Span × String) :=
  let numberText := sliceChars cs target.s target.e
  match parseFloatDec numberText with
  | none => none
  | some number =>
    let newNumberText := formatNewNumber step isIncrement number
    match findEnclosingClass (scanTw cs) target with
    | some m =>
      some (⟨m.index, m.fullEnd⟩,
        String.mk (twStemStr cs m ++ '-' :: newNumberText.data ++ twSufStr cs m))
    | none => some (target, newNumberText)

/-- What an adjustment request does to the document: nothing, delegate to
the host's Emmet increment at the target span (CSS declarations), or edit
a span of the line (Tailwind). -/
inductive AdjustOutcome where
  | noop
  | emmetDelegate (target : Span)
  | edit (sp : Span) (text : String)
deriving DecidableEq

/-- `runNumberAdjustment` restricted to one line: find the closest numeric
span, then mutate it through the Tailwind arithmetic (HTML/JSX) or
delegate to the host's native increment (otherwise). -/
def runNumberAdjustmentLine (doc : Document) (lineNumber : Int)
    (referenceColumn : Option Nat) (step : StepSize) (isIncrement : Bool) :
    AdjustOutcome :=
  match findClosestNumberRangeOnLine doc lineNumber referenceColumn with
  | none => .noop
  | some target =>
    if isHtmlOrJsxLanguage doc.languageId then
      match twAdjust (doc.lineTextAt lineNumber.toNat) target step isIncrement with
      | none => .noop
      | some (sp, text) => .edit sp text
    else .emmetDelegate target

/-- Apply an adjustment outcome to the line's text (the host applies the
edit; delegation and no-ops leave the text as seen by this core). -/
def applyOutcome (line : String) : AdjustOutcome → String
  | .noop => line
  | .emmetDelegate _ => line
  | .edit sp text => applyReplace line sp text

/-! ## Keyword cycling (`createCyclePropertyValueCommand`,
`applyPropertyValueAdjustment`) -/

/-- The new-index computation of the cycle command:
`(currentIndex + 1) % length` forward,
`(currentIndex - 1 + length) % length` backward, over JS numbers
(modelled by `Int`, on which JS `%` of nonnegative operands agrees). -/
def cycleNewIndex (forward : Bool) (currentIndex n : Nat) : Int :=
  if forward then ((currentIndex : Int) + 1) % (n : Int)
  else ((currentIndex : Int) - 1 + n) % (n : Int)

/-- `findIndex((v) => v.toLowerCase() === value.toLowerCase())`. -/
def findIdxCi (vals : List String) (value : String) : Option Nat :=
  vals.findIdx? (fun v => decide (lowerChars v.data = lowerChars value.data))

/-- The pattern `^\s*!\s*important` (case-insensitive) at the head of
`rem`: total matched length, `none` when it does not match. -/
def importantAfterLen (rem : List Char) : Option Nat :=
  let w := runLength isSpaceCh rem
  match rem.drop w with
  | '!' :: rest =>
    let w2 := runLength isSpaceCh rest
    if ciPrefix "important".data (rest.drop w2) then some (w + 1 + w2 + 9)
    else none
  | _ => none

/-- The result of a keyword-cycle mutation: the replaced span, the text
written there, the resulting line, and the column the cursor is moved
to. -/
structure CycleResult where
  replaceSpan : Span
  replacement : String
  newLine : String
  cursor : Nat
deriving DecidableEq

/-- The mutation part of `createCyclePropertyValueCommand`, from a
detected `PropertyValueInfo` onward: family lookup, case-insensitive index
search, wrapping index step, `!important` preservation, edit and cursor
placement (the code sets the selection to `newRange.start`, which is the
start of the replaced span). -/
def cycleFromInfo (line : String) (info : PvInfo) (forward : Bool) :
    Option CycleResult :=
  match lookupPV info.property with
  | none => none
  | some validValues =>
    if validValues.length = 0 then none
    else
      match findIdxCi validValues info.value with
      | none => none
      | some currentIndex =>
        let newIndex := (cycleNewIndex forward currentIndex validValues.length).toNat
        let newValue := validValues.getD newIndex ""
        let valueAfterCurrent := line.data.drop info.range.e
        match importantAfterLen valueAfterCurrent with
        | some mlen =>
          let replacement := String.mk (newValue.data ++ " !important".data)
          let fullSpan : Span := ⟨info.range.s, info.range.e + mlen⟩
          some ⟨fullSpan, replacement, applyReplace line fullSpan replacement,
            info.range.s⟩
        | none =>
          some ⟨info.range, newValue, applyReplace line info.range newValue,
            info.range.s⟩

/-- The whole cycle command on one line: detect the nearest property
value, then mutate it. -/
def cyclePropertyValueLine (doc : Document) (lineNumber : Int)
    (referenceColumn : Option Nat) (forward : Bool) : Option CycleResult :=
  match findClosestPropertyValueRangeOnLine doc lineNumber referenceColumn with
  | none => none
  | some info =>
    cycleFromInfo (doc.lines.getD lineNumber.toNat "") info forward

/-- The line text after a cycle mutation (unchanged on a no-op). -/
def applyCycle (line : String) (info : PvInfo) (forward : Bool) : String :=
  match cycleFromInfo line info forward with
  | none => line
  | some r => r.newLine

/-- The line text after a Tailwind numeric mutation (unchanged on a
no-op). -/
def applyTwAdjust (line : String) (target : Span) (step : StepSize)
    (isIncrement : Bool) : String :=
  match twAdjust line.data target step isIncrement with
  | none => line
  | some (sp, text) => applyReplace line sp text

/-! ## The number-vs-keyword choice (`runValueAdjustment`) -/

/-- Which candidate an adjustment request is routed to. -/
inductive ValueTarget where
  | num (sp : Span)
  | prop (info : PvInfo)
deriving DecidableEq

/-- The target choice of `runValueAdjustment`: when both a numeric and a
keyword candidate are found, compare the midpoint distances and prefer the
keyword candidate when its distance is less than or equal. -/
def runValueAdjustmentChoice (doc : Document) (lineNumber : Int)
    (referenceColumn : Option Nat) : Option ValueTarget :=
  let numberRange := findClosestNumberRangeOnLine doc lineNumber referenceColumn
  let propertyInfo :=
    findClosestPropertyValueRangeOnLine doc lineNumber referenceColumn
  match numberRange, propertyInfo with
  | none, none => none
  | some nr, none => some (.num nr)
  | none, some info => some (.prop info)
  | some nr, some info =>
    let rc := referenceColumn.getD 0
    if distTwice info.range rc ≤ distTwice nr rc then some (.prop info)
    else some (.num nr)

/-! # Theorems

First some general lemmas about `find?`/`all` congruence and the exact
rescaling between the doubled integer distances computed by the code
embedding and the rational midpoint distances of the spec, then one
theorem per claim. -/

theorem find?_congr_pred {α : Type} {p q : α → Bool} {l : List α}
    (h : ∀ a ∈ l, p a = q a) : l.find? p = l.find? q := by
  induction l with
  | nil => rfl
  | cons a l ih =>
    have ha := h a (List.mem_cons_self a l)
    cases hq : q a with
    | true =>
      rw [List.find?_cons_of_pos _ (ha.trans hq), List.find?_cons_of_pos _ hq]
    | false =>
      rw [List.find?_cons_of_neg _ (by simp [ha, hq]),
        List.find?_cons_of_neg _ (by simp [hq])]
      exact ih (fun b hb => h b (List.mem_cons_of_mem a hb))

theorem all_congr_pred {α : Type} {p q : α → Bool} {l : List α}
    (h : ∀ a ∈ l, p a = q a) : l.all p = l.all q := by
  induction l with
  | nil => rfl
  | cons a l ih =>
    simp only [List.all_cons, h a (List.mem_cons_self a l),
      ih (fun b hb => h b (List.mem_cons_of_mem a hb))]

theorem centerDist_eq_distTwice (sp : Span) (rc : Nat) :
    centerDist sp rc = (distTwice sp rc : ℚ) / 2 := by
  have h : ((distTwice sp rc : Nat) : ℚ) = |(sp.s : ℚ) + sp.e - 2 * rc| := by
    unfold distTwice
    rw [Int.cast_natAbs]
    push_cast
    ring_nf
  unfold centerDist
  rw [show ((sp.s : ℚ) + sp.e) / 2 - rc = ((sp.s : ℚ) + sp.e - 2 * rc) / 2 by
    ring, abs_div, h]
  norm_num

theorem centerDist_le_iff (sp t : Span) (rc : Nat) :
    centerDist sp rc ≤ centerDist t rc ↔ distTwice sp rc ≤ distTwice t rc := by
  rw [centerDist_eq_distTwice, centerDist_eq_distTwice,
    div_le_div_iff_of_pos_right (by norm_num : (0 : ℚ) < 2), Nat.cast_le]

theorem firstMin_eq_firstMinN (rc : Nat) (rs : List Span) :
    firstMin rc rs = firstMinN rc rs := by
  unfold firstMin firstMinN
  apply find?_congr_pred
  intro sp _
  apply all_congr_pred
  intro t _
  simp only [decide_eq_decide]
  exact centerDist_le_iff sp t rc

theorem firstMinN_closestLoop (rc : Nat) (xs : List Span) :
    ∀ b : Span,
      firstMinN rc (b :: xs) = some (closestLoop rc b (distTwice b rc) xs) := by
  induction xs with
  | nil =>
    intro b
    unfold firstMinN closestLoop
    simp [List.find?]
  | cons x l ih =>
    intro b
    by_cases h : distTwice x rc < distTwice b rc
    · rw [show closestLoop rc b (distTwice b rc) (x :: l)
          = closestLoop rc x (distTwice x rc) l by
        simp only [closestLoop]; rw [if_pos h]]
      rw [← ih x]
      unfold firstMinN
      set pL := fun sp : Span =>
        (b :: x :: l).all fun t => decide (distTwice sp rc ≤ distTwice t rc)
        with hpL
      set pR := fun sp : Span =>
        (x :: l).all fun t => decide (distTwice sp rc ≤ distTwice t rc)
        with hpR
      rw [List.find?_cons_of_neg _ (show ¬ pL b = true by
        rw [hpL]
        simp only [List.all_eq_true, decide_eq_true_eq]
        push_neg
        exact ⟨x, by simp, by omega⟩)]
      apply find?_congr_pred
      intro sp _
      rw [hpL, hpR]
      simp only [List.all_cons]
      cases hA : (x :: l).all (fun t => decide (distTwice sp rc ≤ distTwice t rc)) with
      | false => simp [List.all_cons] at hA ⊢; omega
      | true =>
        have hx : distTwice sp rc ≤ distTwice x rc := by
          have := (List.all_eq_true.mp hA) x (by simp)
          simpa using this
        have hsb : distTwice sp rc ≤ distTwice b rc := by omega
        simp only [List.all_cons] at hA
        simp [hA, hsb]
    · have hle : distTwice b rc ≤ distTwice x rc := by omega
      rw [show closestLoop rc b (distTwice b rc) (x :: l)
          = closestLoop rc b (distTwice b rc) l by
        simp only [closestLoop]; rw [if_neg h]]
      rw [← ih b]
      unfold firstMinN
      set pL := fun sp : Span =>
        (b :: x :: l).all fun t => decide (distTwice sp rc ≤ distTwice t rc)
        with hpL
      set pM := fun sp : Span =>
        (b :: l).all fun t => decide (distTwice sp rc ≤ distTwice t rc)
        with hpM
      have hpe : ∀ sp : Span, pL sp = pM sp := by
        intro sp
        rw [hpL, hpM]
        simp only [List.all_cons]
        cases hsb : decide (distTwice sp rc ≤ distTwice b rc) with
        | false => simp
        | true =>
          have hsx : decide (distTwice sp rc ≤ distTwice x rc) = true := by
            simp only [decide_eq_true_eq] at hsb ⊢
            omega
          simp [hsx]
      by_cases hb : pM b = true
      · rw [List.find?_cons_of_pos _ (show pL b = true from (hpe b).trans hb),
          List.find?_cons_of_pos _ hb]
      · have hLx : ¬ pL x = true := by
          rw [hpL]
          intro hx
          simp only [List.all_eq_true, decide_eq_true_eq] at hx
          have hxb : distTwice x rc ≤ distTwice b rc := hx b (by simp)
          apply hb
          rw [hpM]
          simp only [List.all_eq_true, decide_eq_true_eq]
          intro t ht
          rcases List.mem_cons.mp ht with hteq | htl
          · subst hteq; omega
          · have := hx t (by simp [htl])
            omega
        rw [List.find?_cons_of_neg _ (show ¬ pL b = true by
            rw [hpe b]; exact hb),
          List.find?_cons_of_neg _ hLx, List.find?_cons_of_neg _ hb]
        exact find?_congr_pred (fun sp _ => hpe sp)

/-- C1: for every in-bounds line and reference column,
`findClosestNumberRangeOnLine` returns the first scanned candidate whose
span contains the reference column (both ends inclusive); when no
candidate contains it, the candidate whose span midpoint `(start+end)/2`
has minimum absolute distance to the reference column, ties broken by
first occurrence in scan order; and `none` when the line has no
candidates — i.e. it coincides with the spec's `selectNearest` rule. -/
theorem nearestNumberSelectionSpec (doc : Document) (ln : Int)
    (r : Option Nat) (h1 : 0 ≤ ln) (h2 : ln < doc.lineCount) :
    findClosestNumberRangeOnLine doc ln r
      = specNearest (getNumberRangesOnLine doc ln.toNat) (r.getD 0) := by
  unfold findClosestNumberRangeOnLine specNearest
  rw [if_neg (by omega : ¬(ln < 0 ∨ doc.lineCount ≤ ln))]
  cases hrs : getNumberRangesOnLine doc ln.toNat with
  | nil => simp [firstMin, List.find?]
  | cons r0 rest =>
    cases hfind : (r0 :: rest).find? (fun sp => containsRef sp (r.getD 0)) with
    | some sp =>
      dsimp only
      rw [hfind]
    | none =>
      dsimp only
      rw [hfind, firstMin_eq_firstMinN, firstMinN_closestLoop]

/-- Witness for C1, on the repository's own test line: reference column 18
selects the span of `10px`. -/
theorem nearestNumberSelectionSpecWitness :
    findClosestNumberRangeOnLine ⟨"css", [" .box \x7b margin: 10px 20px; \x7d"]⟩ 0
        (some 18)
      = specNearest
          (getNumberRangesOnLine ⟨"css", [" .box \x7b margin: 10px 20px; \x7d"]⟩
            (Int.toNat 0))
          ((some 18).getD 0) :=
  nearestNumberSelectionSpec ⟨"css", [" .box \x7b margin: 10px 20px; \x7d"]⟩ 0
    (some 18) (by decide) (by decide)

/-- C10: for every line index that is negative or not less than the
document's line count, both `findClosestNumberRangeOnLine` and
`findClosestPropertyValueRangeOnLine` return `none` for every reference
column, rather than raising an error. -/
theorem outOfBoundsLineYieldsNone (doc : Document) (ln : Int) (r : Option Nat)
    (h : ln < 0 ∨ doc.lineCount ≤ ln) :
    findClosestNumberRangeOnLine doc ln r = none ∧
      findClosestPropertyValueRangeOnLine doc ln r = none := by
  unfold findClosestNumberRangeOnLine findClosestPropertyValueRangeOnLine
  rw [if_pos h, if_pos h]
  exact ⟨rfl, rfl⟩

/-- Witness for C10 at line index `-1` of a one-line CSS document. -/
theorem outOfBoundsLineYieldsNoneWitness :
    findClosestNumberRangeOnLine ⟨"css", ["margin: 10px;"]⟩ (-1) (some 3) = none ∧
      findClosestPropertyValueRangeOnLine ⟨"css", ["margin: 10px;"]⟩ (-1)
        (some 3) = none :=
  outOfBoundsLineYieldsNone ⟨"css", ["margin: 10px;"]⟩ (-1) (some 3)
    (Or.inl (by decide))

/-- C5: for every family of the Enumeration Table and every in-range
current index, keyword cycling is modular: the new index is
`(i + 1) % n` forward and `(i - 1 + n) % n` backward, so cycling forward
from the last member yields the first member and cycling backward from the
first member yields the last member. -/
theorem keywordCyclingModular (prop : String) (vals : List String)
    (hv : lookupPV prop = some vals) (i : Nat) (hi : i < vals.length) :
    cycleNewIndex true i vals.length = (((i + 1) % vals.length : Nat) : Int) ∧
    cycleNewIndex false i vals.length
      = (((i + vals.length - 1) % vals.length : Nat) : Int) ∧
    (i + 1 = vals.length →
      vals.getD (cycleNewIndex true i vals.length).toNat "" = vals.getD 0 "") ∧
    (i = 0 →
      vals.getD (cycleNewIndex false i vals.length).toNat ""
        = vals.getD (vals.length - 1) "") := by
  have hn : 0 < vals.length := by omega
  have hfwd : cycleNewIndex true i vals.length
      = (((i + 1) % vals.length : Nat) : Int) := by
    unfold cycleNewIndex
    rw [if_pos rfl, Int.natCast_mod]
    push_cast
    ring_nf
  have hbwd : cycleNewIndex false i vals.length
      = (((i + vals.length - 1) % vals.length : Nat) : Int) := by
    unfold cycleNewIndex
    rw [if_neg (by simp), Int.natCast_mod]
    congr 1
    omega
  refine ⟨hfwd, hbwd, ?w1, ?w2⟩
  case w1 =>
    intro hlast
    rw [hfwd, hlast, Nat.mod_self]
    simp
  case w2 =>
    intro h0
    subst h0
    rw [hbwd, show (0 + vals.length - 1) % vals.length = vals.length - 1 by
      rw [Nat.zero_add]; exact Nat.mod_eq_of_lt (by omega)]
    simp

/-- Witness for C5: in the `justify-content` family (seven members),
cycling forward from index 6 (`stretch`, the last member) yields
`flex-start`, the first member. -/
theorem keywordCyclingModularWitness :
    cycleNewIndex true 6 7 = (((6 + 1) % 7 : Nat) : Int) ∧
    cycleNewIndex false 6 7 = (((6 + 7 - 1) % 7 : Nat) : Int) ∧
    (6 + 1 = 7 →
      ["flex-start", "flex-end", "center", "space-between", "space-around",
        "space-evenly", "stretch"].getD (cycleNewIndex true 6 7).toNat ""
        = ["flex-start", "flex-end", "center", "space-between", "space-around",
            "space-evenly", "stretch"].getD 0 "") ∧
    (6 = 0 →
      ["flex-start", "flex-end", "center", "space-between", "space-around",
        "space-evenly", "stretch"].getD (cycleNewIndex false 6 7).toNat ""
        = ["flex-start", "flex-end", "center", "space-between", "space-around",
            "space-evenly", "stretch"].getD (7 - 1) "") :=
  keywordCyclingModular "justify-content"
    ["flex-start", "flex-end", "center", "space-between", "space-around",
      "space-evenly", "stretch"] (by decide) 6 (by decide)

/-- C4: for every Tailwind numeric mutation on a parseable target, when
the re-location scan finds a compound token whose number group is exactly
the target span, the replacement span is the entire compound token and the
replacement text is the stem, a hyphen, the new number text and the
suffix; when no enclosing token is found, only the original numeric span
is replaced with the new number text. -/
theorem compoundTokenReplacement (line : List Char) (target : Span)
    (step : StepSize) (inc : Bool) (x : Dec10)
    (hq : parseFloatDec (sliceChars line target.s target.e) = some x) :
    (∀ m, findEnclosingClass (scanTw line) target = some m →
      twAdjust line target step inc
        = some (⟨m.index, m.fullEnd⟩,
            String.mk (twStemStr line m ++ '-' ::
              (formatNewNumber step inc x).data ++ twSufStr line m))) ∧
    (findEnclosingClass (scanTw line) target = none →
      twAdjust line target step inc
        = some (target, formatNewNumber step inc x)) := by
  constructor
  · intro m hm
    unfold twAdjust
    dsimp only
    rw [hq]
    dsimp only
    rw [hm]
  · intro hm
    unfold twAdjust
    dsimp only
    rw [hq]
    dsimp only
    rw [hm]

/-- Witness for C4: mutating `w-12` forward by the unit step replaces the
whole token span `[0,4)` with `w-13`. -/
theorem compoundTokenReplacementWitness :
    twAdjust "w-12".data ⟨2, 4⟩ .one true = some (⟨0, 4⟩, "w-13") := by
  have h := (compoundTokenReplacement "w-12".data ⟨2, 4⟩ .one true ⟨12, 0⟩
    (by decide)).1 ⟨0, 1, 2, 0⟩ (by decide)
  rw [h]
  decide

/-- C6: fractional-step adjustment round-trips with `.0` stripping:
stepping `gap-2` backward by 0.1 edits the whole token to `gap-1.9`, and
stepping `gap-1.9` forward by 0.1 edits it back to `gap-2` (not
`gap-2.0`), the new number being formatted with one decimal digit and a
trailing `.0` stripped. -/
theorem fractionalStepRoundTrip :
    runNumberAdjustmentLine ⟨"html", ["gap-2"]⟩ 0 (some 4) .tenth false
        = .edit ⟨0, 5⟩ "gap-1.9" ∧
    applyOutcome "gap-2"
        (runNumberAdjustmentLine ⟨"html", ["gap-2"]⟩ 0 (some 4) .tenth false)
      = "gap-1.9" ∧
    runNumberAdjustmentLine ⟨"html", ["gap-1.9"]⟩ 0 (some 4) .tenth true
        = .edit ⟨0, 7⟩ "gap-2" ∧
    applyOutcome "gap-1.9"
        (runNumberAdjustmentLine ⟨"html", ["gap-1.9"]⟩ 0 (some 4) .tenth true)
      = "gap-2" :=
  ⟨by decide, by decide, by decide, by decide⟩

/-- C2 counterexample: on the line
`justify-content: space-between; a: 1` with reference column 30, the
keyword candidate's span `[17,30]` contains the reference column while the
numeric candidate's span `[35,36]` does not, yet the adjustment is routed
to the numeric candidate (midpoint distance 5.5 against 6.5) — the
claimed preference for the candidate whose span contains the reference
column does not hold. -/
theorem valueChoiceContainmentCex :
    findClosestPropertyValueRangeOnLine
        ⟨"css", ["justify-content: space-between; a: 1"]⟩ 0 (some 30)
      = some ⟨⟨17, 30⟩, "justify-content", "space-between"⟩ ∧
    containsRef ⟨17, 30⟩ 30 = true ∧
    findClosestNumberRangeOnLine
        ⟨"css", ["justify-content: space-between; a: 1"]⟩ 0 (some 30)
      = some ⟨35, 36⟩ ∧
    containsRef ⟨35, 36⟩ 30 = false ∧
    runValueAdjustmentChoice
        ⟨"css", ["justify-content: space-between; a: 1"]⟩ 0 (some 30)
      = some (.num ⟨35, 36⟩) :=
  ⟨by decide, by decide, by decide, by decide, by decide⟩

/-- C2 amended: when both a numeric and a keyword candidate are found on
the line, the adjustment operation compares only span midpoints: it
prefers the keyword candidate exactly when the keyword midpoint's distance
to the reference column is less than or equal to the numeric midpoint's
(in particular equal distances prefer the keyword candidate); whether a
span contains the reference column plays no role in this comparison. -/
theorem valueChoiceMidpointRule (doc : Document) (ln : Int) (r : Option Nat)
    (nr : Span) (info : PvInfo)
    (hn : findClosestNumberRangeOnLine doc ln r = some nr)
    (hp : findClosestPropertyValueRangeOnLine doc ln r = some info) :
    runValueAdjustmentChoice doc ln r
      = if centerDist info.range (r.getD 0) ≤ centerDist nr (r.getD 0)
        then some (.prop info) else some (.num nr) := by
  unfold runValueAdjustmentChoice
  dsimp only
  rw [hn, hp]
  dsimp only
  exact if_congr ((centerDist_le_iff info.range nr (r.getD 0)).symm) rfl rfl

/-- Witness for C2 amended, at the counterexample input. -/
theorem valueChoiceMidpointRuleWitness :
    runValueAdjustmentChoice
        ⟨"css", ["justify-content: space-between; a: 1"]⟩ 0 (some 30)
      = if centerDist ⟨17, 30⟩ ((some 30).getD 0)
            ≤ centerDist ⟨35, 36⟩ ((some 30).getD 0)
        then some (.prop ⟨⟨17, 30⟩, "justify-content", "space-between"⟩)
        else some (.num ⟨35, 36⟩) :=
  valueChoiceMidpointRule ⟨"css", ["justify-content: space-between; a: 1"]⟩ 0
    (some 30) ⟨35, 36⟩ ⟨⟨17, 30⟩, "justify-content", "space-between"⟩
    (by decide) (by decide)

/-- C3 counterexample: on `justify-content: center !important;` with the
reference column on the value, one forward keyword cycle produces the line
`justify-content: space-between !important;` — forward from `center` in
the seven-member `justify-content` family is `space-between` — and not
the `justify-content: flex-start !important;` stated by the claim. -/
theorem importantForwardCycleCex :
    (cyclePropertyValueLine ⟨"css", ["justify-content: center !important;"]⟩ 0
        (some 20) true).map (fun r => r.newLine)
      = some "justify-content: space-between !important;" ∧
    (cyclePropertyValueLine ⟨"css", ["justify-content: center !important;"]⟩ 0
        (some 20) true).map (fun r => r.newLine)
      ≠ some "justify-content: flex-start !important;" :=
  ⟨by decide, by decide⟩

/-- C3 amended: on `justify-content: center !important;` with the
reference column on the value, one forward keyword cycle yields
`justify-content: space-between !important;`: the replacement text is the
new keyword followed by a single space and `!important`, the replace span
`[17,34)` extends over the original modifier text, and exactly one
`!important` appears afterwards, never two. -/
theorem importantForwardCycle :
    cyclePropertyValueLine ⟨"css", ["justify-content: center !important;"]⟩ 0
        (some 20) true
      = some ⟨⟨17, 34⟩, "space-between !important",
          "justify-content: space-between !important;", 17⟩ ∧
    countOccur "!important".data
        "justify-content: space-between !important;".data = 1 :=
  ⟨by decide, by decide⟩

/-- C7 counterexample: on `.row { justify-content: flex-start; }` a
forward cycle writes `flex-end` at span `[24,34)` but places the cursor at
column 24 — the start of the replacement span — and not at
`24 + length "flex-end" = 32` as the claim states. -/
theorem cycleCursorCex :
    (cyclePropertyValueLine ⟨"css", [".row \x7b justify-content: flex-start; \x7d"]⟩
        0 (some 28) true).map (fun r => r.cursor)
      = some 24 ∧
    (cyclePropertyValueLine ⟨"css", [".row \x7b justify-content: flex-start; \x7d"]⟩
        0 (some 28) true).map (fun r => r.cursor)
      ≠ some (24 + "flex-end".length) :=
  ⟨by decide, by decide⟩

/-- C7 amended: after every successful enumerated-keyword mutation, the
new cursor column equals the start of the replacement span — the cursor
lands at the beginning of the newly written keyword, not at its end. -/
theorem cycleCursorAtReplacementStart (line : String) (info : PvInfo)
    (fwd : Bool) (res : CycleResult)
    (h : cycleFromInfo line info fwd = some res) :
    res.cursor = res.replaceSpan.s := by
  unfold cycleFromInfo at h
  cases hl : lookupPV info.property with
  | none =>
    rw [hl] at h
    exact absurd h (by simp)
  | some validValues =>
    rw [hl] at h
    dsimp only at h
    by_cases hlen : validValues.length = 0
    · rw [if_pos hlen] at h
      exact absurd h (by simp)
    · rw [if_neg hlen] at h
      cases hidx : findIdxCi validValues info.value with
      | none =>
        rw [hidx] at h
        exact absurd h (by simp)
      | some i =>
        rw [hidx] at h
        dsimp only at h
        cases him : importantAfterLen (line.data.drop info.range.e) with
        | some mlen =>
          rw [him] at h
          cases h
          rfl
        | none =>
          rw [him] at h
          cases h
          rfl

/-- Witness for C7 amended: the cycle on
`.row { justify-content: flex-start; }` leaves the cursor at the start of
the replaced span. -/
theorem cycleCursorAtReplacementStartWitness :
    (⟨⟨24, 34⟩, "flex-end", ".row \x7b justify-content: flex-end; \x7d", 24⟩ :
        CycleResult).cursor
      = (⟨⟨24, 34⟩, "flex-end", ".row \x7b justify-content: flex-end; \x7d", 24⟩ :
          CycleResult).replaceSpan.s :=
  cycleCursorAtReplacementStart ".row \x7b justify-content: flex-start; \x7d"
    ⟨⟨24, 34⟩, "justify-content", "flex-start"⟩ true
    ⟨⟨24, 34⟩, "flex-end", ".row \x7b justify-content: flex-end; \x7d", 24⟩
    (by decide)

/-- C8 counterexample: on `justify-content: center!important;` — the
`!important` marker directly adjacent to the keyword, with no whitespace —
the detector records the span `[17,27]`, whose text is `center!imp`: the
span is not the matched member text `center` (which would be `[17,23]`)
and it includes modifier characters. -/
theorem keywordSpanModifierCex :
    findClosestPropertyValueRangeOnLine
        ⟨"css", ["justify-content: center!important;"]⟩ 0 (some 20)
      = some ⟨⟨17, 27⟩, "justify-content", "center"⟩ ∧
    String.mk (sliceChars "justify-content: center!important;".data 17 27)
      = "center!imp" ∧
    ("center!imp" : String) ≠ "center" :=
  ⟨by decide, by decide, by decide⟩

/-- C8 amended: the recorded span ends exactly at the matched member's end
whenever what follows the member is whitespace, a semicolon, end of text,
or anything other than a directly adjacent `!important` marker — so a
whitespace-separated `!important` is never included; but when an
`!important` marker follows the member immediately, with no whitespace,
the span's end becomes the member's start plus the length of the matched
modifier text, so the span then contains modifier characters. -/
theorem keywordSpanEndRule (spanStart vLen : Nat) (remaining : List Char) :
    (importantDirectLen remaining = none →
      pvActualEnd spanStart vLen remaining = spanStart + vLen) ∧
    (∀ m, importantDirectLen remaining = some m →
      pvActualEnd spanStart vLen remaining = spanStart + m) := by
  constructor
  · intro hnone
    cases remaining with
    | nil => rfl
    | cons c rest =>
      unfold pvActualEnd
      by_cases hc : c = '!'
      · subst hc
        simp [List.head?, hnone]
      · simp [List.head?, hc]
  · intro m hm
    cases remaining with
    | nil => simp [importantDirectLen] at hm
    | cons c rest =>
      have hc : c = '!' := by
        by_contra hcn
        unfold importantDirectLen at hm
        dsimp only at hm
        rw [if_neg hcn] at hm
        exact absurd hm (by simp)
      subst hc
      unfold pvActualEnd
      simp [List.head?, hm]

/-- Witness for C8 amended: with `!important;` directly after the member
(`center`, 6 characters, starting at column 17), the span end is
`17 + 10 = 27`, inside the modifier. -/
theorem keywordSpanEndRuleWitness :
    pvActualEnd 17 6 "!important;".data = 17 + 10 :=
  (keywordSpanEndRule 17 6 "!important;".data).2 10 (by decide)

/-- C9: every precondition failure of a mutation is a silent no-op — a
numeric span whose text does not parse as a float leaves the Tailwind
mutation without effect, and a keyword family absent from the Enumeration
Table, or a matched value not found case-insensitively in its family,
leaves the keyword mutation without effect; in every case the line text is
returned completely unchanged (and the embedded operations are total, so
no error is raised). -/
theorem preconditionFailureNoop :
    (∀ (line : String) (target : Span) (step : StepSize) (inc : Bool),
      parseFloatDec (sliceChars line.data target.s target.e) = none →
      twAdjust line.data target step inc = none ∧
        applyTwAdjust line target step inc = line) ∧
    (∀ (line : String) (info : PvInfo) (fwd : Bool),
      lookupPV info.property = none →
      cycleFromInfo line info fwd = none ∧ applyCycle line info fwd = line) ∧
    (∀ (line : String) (info : PvInfo) (fwd : Bool) (vals : List String),
      lookupPV info.property = some vals →
      findIdxCi vals info.value = none →
      cycleFromInfo line info fwd = none ∧ applyCycle line info fwd = line) := by
  refine ⟨?p1, ?p2, ?p3⟩
  case p1 =>
    intro line target step inc hp
    have ht : twAdjust line.data target step inc = none := by
      unfold twAdjust
      dsimp only
      rw [hp]
    exact ⟨ht, by unfold applyTwAdjust; rw [ht]⟩
  case p2 =>
    intro line info fwd hl
    have hc : cycleFromInfo line info fwd = none := by
      unfold cycleFromInfo
      rw [hl]
    exact ⟨hc, by unfold applyCycle; rw [hc]⟩
  case p3 =>
    intro line info fwd vals hl hidx
    have hc : cycleFromInfo line info fwd = none := by
      unfold cycleFromInfo
      rw [hl]
      dsimp only
      by_cases hlen : vals.length = 0
      · rw [if_pos hlen]
      · rw [if_neg hlen, hidx]
    exact ⟨hc, by unfold applyCycle; rw [hc]⟩

/-- Witness for C9: an unparseable numeric span (`abc`), an unknown family
(`color`), and a value missing from its family (`zzz` in `align-items`)
each leave the line unchanged. -/
theorem preconditionFailureNoopWitness :
    (twAdjust "w-abc".data ⟨2, 5⟩ .one true = none ∧
      applyTwAdjust "w-abc" ⟨2, 5⟩ .one true = "w-abc") ∧
    (cycleFromInfo "color: red;" ⟨⟨7, 10⟩, "color", "red"⟩ true = none ∧
      applyCycle "color: red;" ⟨⟨7, 10⟩, "color", "red"⟩ true = "color: red;") ∧
    (cycleFromInfo "align-items: zzz;" ⟨⟨13, 16⟩, "align-items", "zzz"⟩ true
        = none ∧
      applyCycle "align-items: zzz;" ⟨⟨13, 16⟩, "align-items", "zzz"⟩ true
        = "align-items: zzz;") :=
  ⟨preconditionFailureNoop.1 "w-abc" ⟨2, 5⟩ .one true (by decide),
   preconditionFailureNoop.2.1 "color: red;" ⟨⟨7, 10⟩, "color", "red"⟩ true
     (by decide),
   preconditionFailureNoop.2.2 "align-items: zzz;"
     ⟨⟨13, 16⟩, "align-items", "zzz"⟩ true
     ["flex-start", "flex-end", "center", "baseline", "stretch"]
     (by decide) (by decide)⟩

end CssControls
